import Mathlib

/-!
Verification of the scoopit content-extraction pipeline.

This file gives a shallow embedding, in Lean, of the core functions of the
repository:

* `utils/contentProcessor.js`: `isJsonContent`, `cleanHtml`, `extractMetaInfo`,
  `extractContent`, `convertToMarkdown`;
* the route orchestrator (`index.js`): `fetchContent` boundary,
  `generateFilesForRoute`, `processRoutes`.

Modelling conventions:

* JavaScript strings are Lean `String`s; `null` and `undefined` are modelled by
  the dedicated type `JsStr` where a function can receive them.
* `JSON.parse` is modelled by the executable parser `parseJson` below
  (objects, arrays, strings, integer numbers, booleans, null); `JSON.stringify(v, null, 2)`
  is modelled by `stringify2`.
* The DOM produced by `cheerio.load` is modelled by the tree type `Dom`.
  Functions that in the source parse an HTML string take the parse function as
  an explicit parameter `parse : String → Dom`, so theorems quantify over it.
* Thrown-and-caught JavaScript exceptions are modelled with `Except JsError`.
* Network and filesystem effects are out of the model: the fetcher is a
  parameter `fetch : String → Option String` (`none` = the `null` that
  `fetchContent` returns on any error), and file writes are identity effects.
-/

/-- `null` / `undefined` / string inputs, for functions whose JS source
distinguishes them (`content === null`, `!content`, ...). -/
inductive JsStr where
  | null : JsStr
  | undef : JsStr
  | str : String → JsStr
deriving DecidableEq, Repr

/-- A JavaScript exception, as far as the model needs it. -/
inductive JsError where
  | error : String → JsError
  | referenceError : String → JsError
deriving DecidableEq, Repr

/-- `error.message` of a modelled exception. -/
def JsError.message : JsError → String
  | .error m => m
  | .referenceError n => n ++ " is not defined"

/-- A JSON value (numbers restricted to integers, which covers every literal
appearing in this development). -/
inductive Jval where
  | null : Jval
  | bool : Bool → Jval
  | num : Int → Jval
  | str : String → Jval
  | arr : List Jval → Jval
  | obj : List (String × Jval) → Jval

/-- The opening-brace character. -/
def braceOpen : Char := Char.ofNat 123

/-- The closing-brace character. -/
def braceClose : Char := Char.ofNat 125

/-- The double-quote character. -/
def quoteChar : Char := Char.ofNat 34

/-- The backslash character. -/
def backslashChar : Char := Char.ofNat 92

/-- JSON whitespace. -/
def isJsonWs (c : Char) : Bool :=
  c = ' ' || c = '\t' || c = '\n' || c = '\r'

/-- Drop leading JSON whitespace. -/
def skipWsL : List Char → List Char
  | [] => []
  | c :: cs => if isJsonWs c then skipWsL cs else c :: cs

/-- Parse the body of a JSON string literal (after the opening quote).
Supports the escapes used by `JSON.parse` apart from `\u` sequences. -/
def parseStrBody : List Char → Option (String × List Char)
  | [] => none
  | c :: cs =>
    if c = quoteChar then some ("", cs)
    else if c = backslashChar then
      match cs with
      | [] => none
      | e :: cs' =>
        let esc : Option Char :=
          if e = quoteChar then some quoteChar
          else if e = backslashChar then some backslashChar
          else if e = '/' then some '/'
          else if e = 'n' then some '\n'
          else if e = 't' then some '\t'
          else if e = 'r' then some '\r'
          else none
        match esc with
        | none => none
        | some ch =>
          match parseStrBody cs' with
          | none => none
          | some (s, rest) => some (String.mk (ch :: s.data), rest)
    else
      match parseStrBody cs with
      | none => none
      | some (s, rest) => some (String.mk (c :: s.data), rest)

/-- Parse a run of decimal digits with an accumulator. -/
def parseDigitsAcc (acc : Nat) : List Char → Nat × List Char
  | [] => (acc, [])
  | c :: cs =>
    if c.isDigit then parseDigitsAcc (acc * 10 + (c.toNat - 48)) cs
    else (acc, c :: cs)

/-- Parse a JSON integer literal (optional sign, then digits). -/
def parseIntLit : List Char → Option (Int × List Char)
  | [] => none
  | c :: cs =>
    if c = '-' then
      match cs with
      | d :: _ =>
        if d.isDigit then
          let (n, rest) := parseDigitsAcc 0 cs
          some (-(Int.ofNat n), rest)
        else none
      | [] => none
    else if c.isDigit then
      let (n, rest) := parseDigitsAcc 0 (c :: cs)
      some (Int.ofNat n, rest)
    else none

mutual

/-- Fuel-indexed recursive-descent JSON value parser (model of `JSON.parse`). -/
def parseVal : Nat → List Char → Option (Jval × List Char)
  | 0, _ => none
  | fuel + 1, cs =>
    match skipWsL cs with
    | [] => none
    | c :: rest =>
      if c = 'n' then
        match rest with
        | 'u' :: 'l' :: 'l' :: r => some (.null, r)
        | _ => none
      else if c = 't' then
        match rest with
        | 'r' :: 'u' :: 'e' :: r => some (.bool true, r)
        | _ => none
      else if c = 'f' then
        match rest with
        | 'a' :: 'l' :: 's' :: 'e' :: r => some (.bool false, r)
        | _ => none
      else if c = quoteChar then
        match parseStrBody rest with
        | some (s, r) => some (.str s, r)
        | none => none
      else if c = braceOpen then
        match skipWsL rest with
        | c' :: r' =>
          if c' = braceClose then some (.obj [], r')
          else
            match parseObjFields fuel (c' :: r') with
            | some (kvs, r) => some (.obj kvs, r)
            | none => none
        | [] => none
      else if c = '[' then
        match skipWsL rest with
        | c' :: r' =>
          if c' = ']' then some (.arr [], r')
          else
            match parseArrItems fuel (c' :: r') with
            | some (xs, r) => some (.arr xs, r)
            | none => none
        | [] => none
      else
        match parseIntLit (c :: rest) with
        | some (n, r) => some (.num n, r)
        | none => none

/-- Parse one-or-more comma-separated JSON array items, up to `]`. -/
def parseArrItems : Nat → List Char → Option (List Jval × List Char)
  | 0, _ => none
  | fuel + 1, cs =>
    match parseVal fuel cs with
    | none => none
    | some (v, rest) =>
      match skipWsL rest with
      | ',' :: r =>
        match parseArrItems fuel r with
        | some (vs, r') => some (v :: vs, r')
        | none => none
      | c :: r => if c = ']' then some ([v], r) else none
      | [] => none

/-- Parse one-or-more comma-separated `"key": value` fields, up to the
closing brace. -/
def parseObjFields : Nat → List Char → Option (List (String × Jval) × List Char)
  | 0, _ => none
  | fuel + 1, cs =>
    match skipWsL cs with
    | c :: rest =>
      if c = quoteChar then
        match parseStrBody rest with
        | none => none
        | some (k, r1) =>
          match skipWsL r1 with
          | ':' :: r2 =>
            match parseVal fuel r2 with
            | none => none
            | some (v, r3) =>
              match skipWsL r3 with
              | ',' :: r4 =>
                match parseObjFields fuel r4 with
                | some (kvs, r5) => some ((k, v) :: kvs, r5)
                | none => none
              | c' :: r4 =>
                if c' = braceClose then some ([(k, v)], r4) else none
              | [] => none
          | _ => none
      else none
    | [] => none

end

/-- Model of `JSON.parse`: `some v` on success, `none` when the real
`JSON.parse` would throw a `SyntaxError`. -/
def parseJson (s : String) : Option Jval :=
  match parseVal (s.length + 1) s.data with
  | some (v, rest) => if skipWsL rest = [] then some v else none
  | none => none

/-- JavaScript `String.prototype.trim` whitespace. -/
def isJsWs (c : Char) : Bool :=
  c = ' ' || c = '\t' || c = '\n' || c = '\r' ||
  c = Char.ofNat 11 || c = Char.ofNat 12 || c = Char.ofNat 160

/-- Model of `s.trim()` (kernel-computable). -/
def jsTrim (s : String) : String :=
  String.mk (((s.data.dropWhile isJsWs).reverse.dropWhile isJsWs).reverse)

/-- Model of `s.startsWith(p)` (kernel-computable). -/
def jsStartsWith (s p : String) : Bool :=
  p.data.isPrefixOf s.data

/-- Model of `s.endsWith(p)` (kernel-computable). -/
def jsEndsWith (s p : String) : Bool :=
  p.data.reverse.isPrefixOf s.data.reverse

/-- Model of `Array.prototype.join(sep)` / `String.intercalate`
(kernel-computable). -/
def joinSep (sep : String) : List String → String
  | [] => ""
  | [x] => x
  | x :: y :: xs => x ++ sep ++ joinSep sep (y :: xs)

/-- Split a character list at a separator character. -/
def splitOnCharL (sep : Char) : List Char → List (List Char)
  | [] => [[]]
  | c :: cs =>
    let rest := splitOnCharL sep cs
    if c = sep then [] :: rest
    else
      match rest with
      | g :: gs => (c :: g) :: gs
      | [] => [[c]]

/-- Model of `s.split(sep)` for a one-character separator
(kernel-computable). -/
def jsSplitOn (s : String) (sep : Char) : List String :=
  (splitOnCharL sep s.data).map String.mk

mutual

/-- JavaScript string coercion of a JSON value, as in a template literal
`${value}` (strings unquoted, arrays joined with commas, plain objects as
`[object Object]`). -/
def jsToString : Jval → String
  | .null => "null"
  | .bool b => cond b "true" "false"
  | .num n => toString n
  | .str s => s
  | .arr xs => joinSep "," (jsToStringList xs)
  | .obj _ => "[object Object]"

/-- Coercions of the elements of an array. -/
def jsToStringList : List Jval → List String
  | [] => []
  | v :: vs => jsToString v :: jsToStringList vs

end

/-- Model of `utils/contentProcessor.js` `isJsonContent` (lines 9-25):
falsy content is not JSON; trimmed content must start with a brace or a
bracket; then the whole payload must parse. -/
def isJsonContent (content : String) : Bool :=
  if content = "" then false
  else if !(jsStartsWith (jsTrim content) "\x7b" || jsStartsWith (jsTrim content) "[") then
    false
  else
    (parseJson content).isSome

/-- JavaScript truthiness of a JSON value. -/
def truthy : Jval → Bool
  | .null => false
  | .bool b => b
  | .num n => n != 0
  | .str s => s != ""
  | .arr _ => true
  | .obj _ => true

/-- `typeof value !== 'object'` for a JSON value (`null`, arrays and plain
objects all have `typeof` equal to `'object'`). -/
def typeofNotObject : Jval → Bool
  | .null => false
  | .arr _ => false
  | .obj _ => false
  | _ => true

/-- Property access `v.k`: `some` when `v` is an object that has the key,
`none` (undefined) otherwise. -/
def getField (v : Jval) (k : String) : Option Jval :=
  match v with
  | .obj kvs => kvs.lookup k
  | _ => none

/-- Truthy property access: `some` exactly when `v.k` exists and is truthy,
the shape of every `if (jsonData.field)` test in the source. -/
def tfield (v : Jval) (k : String) : Option Jval :=
  match getField v k with
  | some x => if truthy x then some x else none
  | none => none

/-- String-literal escaping used by `JSON.stringify`. -/
def escapeJsonChar (c : Char) : List Char :=
  if c = quoteChar then [backslashChar, quoteChar]
  else if c = backslashChar then [backslashChar, backslashChar]
  else if c = '\n' then [backslashChar, 'n']
  else if c = '\t' then [backslashChar, 't']
  else if c = '\r' then [backslashChar, 'r']
  else [c]

/-- Quote a string as a JSON string literal. -/
def quoteJson (s : String) : String :=
  String.mk (quoteChar :: s.data.flatMap escapeJsonChar ++ [quoteChar])

/-- `n` spaces. -/
def indentSp (n : Nat) : String :=
  String.mk (List.replicate n ' ')

mutual

/-- `JSON.stringify(v, null, 2)` at indentation level `ind`. -/
def stringifyAt (ind : Nat) : Jval → String
  | .null => "null"
  | .bool b => cond b "true" "false"
  | .num n => toString n
  | .str s => quoteJson s
  | .arr [] => "[]"
  | .arr (x :: xs) =>
      "[\n" ++ stringifyItems (ind + 2) (x :: xs) ++ "\n" ++ indentSp ind ++ "]"
  | .obj [] => "\x7b\x7d"
  | .obj (kv :: kvs) =>
      "\x7b\n" ++ stringifyFields (ind + 2) (kv :: kvs) ++ "\n" ++ indentSp ind ++ "\x7d"

/-- Array items, one per line, comma separated. -/
def stringifyItems (ind : Nat) : List Jval → String
  | [] => ""
  | [x] => indentSp ind ++ stringifyAt ind x
  | x :: y :: xs =>
      indentSp ind ++ stringifyAt ind x ++ ",\n" ++ stringifyItems ind (y :: xs)

/-- Object fields, one per line, comma separated. -/
def stringifyFields (ind : Nat) : List (String × Jval) → String
  | [] => ""
  | [(k, v)] => indentSp ind ++ quoteJson k ++ ": " ++ stringifyAt ind v
  | (k, v) :: kv :: kvs =>
      indentSp ind ++ quoteJson k ++ ": " ++ stringifyAt ind v ++ ",\n" ++
        stringifyFields ind (kv :: kvs)

end

/-- Model of `JSON.stringify(v, null, 2)`. -/
def stringify2 (v : Jval) : String := stringifyAt 0 v

/-! ## DOM model

`cheerio.load` produces a queryable document; the tree below models it.
Functions that consume an HTML string take the parser as an explicit
parameter `parse : String → Dom`. -/

/-- A DOM node: element (tag, attributes, children), text, or comment. -/
inductive Dom where
  | elem : String → List (String × String) → List Dom → Dom
  | text : String → Dom
  | comment : String → Dom

/-- The empty document (what `cheerio.load` builds from the empty string). -/
def emptyDoc : Dom :=
  .elem "html" [] [.elem "head" [] [], .elem "body" [] []]

/-- Attribute lookup on an element node (`undefined` for non-elements or
missing attributes). -/
def attrOf (d : Dom) (name : String) : Option String :=
  match d with
  | .elem _ attrs _ => attrs.lookup name
  | _ => none

/-- Whitespace used to separate class names in a `class` attribute. -/
def hasClass (d : Dom) (c : String) : Bool :=
  match attrOf d "class" with
  | none => false
  | some cls => ((jsSplitOn cls ' ').filter (· != "")).contains c

mutual

/-- `$(node).text()`: the concatenated text of a subtree (comments excluded),
as cheerio computes it. -/
def textOf : Dom → String
  | .text s => s
  | .comment _ => ""
  | .elem _ _ children => textOfList children

/-- Concatenated text of a forest of nodes. -/
def textOfList : List Dom → String
  | [] => ""
  | d :: ds => textOf d ++ textOfList ds

end

mutual

/-- Serialize a node back to HTML (model of cheerio serialization; attribute
quoting is plain, which suffices for the documents in this file). -/
def serializeNode : Dom → String
  | .text s => s
  | .comment s => "<!--" ++ s ++ "-->"
  | .elem tag attrs children =>
      "<" ++ tag ++
        String.join (attrs.map fun (k, v) =>
          " " ++ k ++ "=" ++ String.mk (quoteChar :: v.data ++ [quoteChar])) ++
        ">" ++ serializeList children ++ "</" ++ tag ++ ">"

/-- Serialize a forest of nodes. -/
def serializeList : List Dom → String
  | [] => ""
  | d :: ds => serializeNode d ++ serializeList ds

end

/-- `$(el).html()`: the inner HTML of an element. -/
def innerHtml : Dom → String
  | .elem _ _ children => serializeList children
  | _ => ""

/-- The CSS selectors the pipeline uses: tag, `#id`, `.class`,
`tag[attr]` (attribute present), `[attr=value]` and `tag[attr=value]`. -/
inductive Selector where
  | tag : String → Selector
  | id : String → Selector
  | cls : String → Selector
  | tagAttrPresent : String → String → Selector
  | attrEq : String → String → Selector
  | tagAttrEq : String → String → String → Selector
deriving DecidableEq, Repr

/-- Whether one node matches one selector. -/
def matchesSel (sel : Selector) (d : Dom) : Bool :=
  match d with
  | .elem tag _ _ =>
    match sel with
    | .tag t => tag = t
    | .id i => attrOf d "id" = some i
    | .cls c => hasClass d c
    | .tagAttrPresent t a => tag = t && (attrOf d a).isSome
    | .attrEq a v => attrOf d a = some v
    | .tagAttrEq t a v => tag = t && attrOf d a = some v
  | _ => false

mutual

/-- `$(selector)` from a root node: every matching node of the subtree in
document (pre-) order, the root included. -/
def selectAll (sel : Selector) (d : Dom) : List Dom :=
  (if matchesSel sel d then [d] else []) ++
    (match d with
     | .elem _ _ children => selectList sel children
     | _ => [])

/-- Matching nodes of a forest, in document order. -/
def selectList (sel : Selector) : List Dom → List Dom
  | [] => []
  | d :: ds => selectAll sel d ++ selectList sel ds

end

/-- `$(el).find(selector)`: matching descendants only, the node itself
excluded. -/
def findAll (sel : Selector) (d : Dom) : List Dom :=
  match d with
  | .elem _ _ children => selectList sel children
  | _ => []

mutual

/-- Nodes of a subtree satisfying a predicate, in document (pre-) order. -/
def selectBy (p : Dom → Bool) (d : Dom) : List Dom :=
  (if p d then [d] else []) ++
    (match d with
     | .elem _ _ children => selectByList p children
     | _ => [])

/-- Nodes of a forest satisfying a predicate, in document order. -/
def selectByList (p : Dom → Bool) : List Dom → List Dom
  | [] => []
  | d :: ds => selectBy p d ++ selectByList p ds

end

/-- Matches of a comma selector group like `.date, .published, .time`,
in document order. -/
def selectGroup (sels : List Selector) (d : Dom) : List Dom :=
  selectBy (fun n => sels.any (matchesSel · n)) d

/-! ## HTML sanitizer: `cleanHtml` (contentProcessor.js lines 32-62) -/

/-- Tags removed by the first `.remove()` call. -/
def noiseTags : List String :=
  ["script", "style", "iframe", "noscript", "svg", "form", "button", "input"]

/-- The first removal pass:
`script, style, iframe, noscript, svg, form, button, input, nav.navbar,
footer, .sidebar, .ads, .comments, .social-sharing`. -/
def isNoiseElem (d : Dom) : Bool :=
  match d with
  | .elem tag _ _ =>
      noiseTags.contains tag ||
      (tag = "nav" && hasClass d "navbar") ||
      tag = "footer" ||
      hasClass d "sidebar" || hasClass d "ads" || hasClass d "comments" ||
      hasClass d "social-sharing"
  | _ => false

/-- Substring test on character lists. -/
def containsSub (pat : List Char) : List Char → Bool
  | [] => pat.isPrefixOf []
  | c :: cs => pat.isPrefixOf (c :: cs) || containsSub pat cs

/-- Substring test (model of `String.prototype.includes`,
kernel-computable). -/
def strIncludes (s pat : String) : Bool :=
  containsSub pat.data s.data

/-- The second removal pass:
`[style*='display:none'], [style*='display: none'], [hidden], .hidden,
.visually-hidden`. -/
def isHiddenElem (d : Dom) : Bool :=
  match d with
  | .elem _ _ _ =>
      (match attrOf d "style" with
       | some st => strIncludes st "display:none" || strIncludes st "display: none"
       | none => false) ||
      (attrOf d "hidden").isSome ||
      hasClass d "hidden" || hasClass d "visually-hidden"
  | _ => false

mutual

/-- Remove every element node (at any depth below the root) satisfying `p`;
the root itself is kept, matching how the pipeline only ever queries below
the document root. -/
def removeElems (p : Dom → Bool) : Dom → Dom
  | .elem tag attrs children => .elem tag attrs (removeElemsList p children)
  | d => d

/-- Removal over a forest. -/
def removeElemsList (p : Dom → Bool) : List Dom → List Dom
  | [] => []
  | d :: ds =>
    match d with
    | .elem _ _ _ =>
      if p d then removeElemsList p ds
      else removeElems p d :: removeElemsList p ds
    | _ => d :: removeElemsList p ds

end

mutual

/-- Remove every comment node of a subtree. -/
def removeComments : Dom → Dom
  | .elem tag attrs children => .elem tag attrs (removeCommentsList children)
  | d => d

/-- Comment removal over a forest. -/
def removeCommentsList : List Dom → List Dom
  | [] => []
  | .comment _ :: ds => removeCommentsList ds
  | d :: ds => removeComments d :: removeCommentsList ds

end

/-- The three removal passes of `cleanHtml`, in source order. -/
def sanitizeDoc (d : Dom) : Dom :=
  removeComments (removeElems isHiddenElem (removeElems isNoiseElem d))

/-- Model of `cleanHtml` (lines 32-62): `null` input returns `null`
(line 33); any other input is loaded (`html || ''` maps `undefined` to the
empty document) and sanitized.  The catch branch would also produce a loaded
empty document, so the function never returns `null` for non-null input. -/
def cleanHtml (parse : String → Dom) : JsStr → Option Dom
  | .null => none
  | .undef => some (sanitizeDoc (parse ""))
  | .str s => some (sanitizeDoc (parse s))

/-! ## Metadata extractor: `extractMetaInfo` (contentProcessor.js lines 70-194) -/

/-- A falsy-chaining `a || b` where `a` is a possibly-undefined string
(`undefined` and `""` both fall through). -/
def jsOrS (a : Option String) (b : String) : String :=
  match a with
  | some s => if s = "" then b else s
  | none => b

/-- A falsy-chaining `a || b` on plain strings. -/
def jsStrOr (a b : String) : String :=
  if a = "" then b else a

/-- `$(sel).attr(name)`: the attribute of the first matched element. -/
def firstAttr (sel : Selector) (doc : Dom) (name : String) : Option String :=
  match selectAll sel doc with
  | [] => none
  | e :: _ => attrOf e name

/-- `$(sel).first().text()` (the empty string when nothing matches). -/
def firstText (sel : Selector) (doc : Dom) : String :=
  match selectAll sel doc with
  | [] => ""
  | e :: _ => textOf e

/-- `$(sels).first().text()` for a comma selector group. -/
def firstTextGroup (sels : List Selector) (doc : Dom) : String :=
  match selectGroup sels doc with
  | [] => ""
  | e :: _ => textOf e

/-- The title fallback chain of the HTML path (lines 134-146):
`og:title` content, else `<title>` text trimmed, else the first `<h1>` text
trimmed when it is shorter than 100 characters. -/
def titleChain (doc : Dom) : String :=
  let title :=
    jsOrS (firstAttr (.tagAttrEq "meta" "property" "og:title") doc "content")
      (jsTrim (textOfList (selectAll (.tag "title") doc)))
  if title = "" && !(selectAll (.tag "h1") doc).isEmpty then
    let h1Text := jsTrim (firstText (.tag "h1") doc)
    if h1Text.length < 100 then h1Text else title
  else title

/-- The description fallback chain (lines 149-153). -/
def descriptionChain (doc : Dom) : String :=
  jsOrS (firstAttr (.tagAttrEq "meta" "name" "description") doc "content")
    (jsOrS (firstAttr (.tagAttrEq "meta" "property" "og:description") doc "content")
      (jsOrS (firstAttr (.tagAttrEq "meta" "name" "twitter:description") doc "content") ""))

/-- The author fallback chain (lines 156-161). -/
def authorChain (doc : Dom) : String :=
  jsOrS (firstAttr (.tagAttrEq "meta" "name" "author") doc "content")
    (jsOrS (firstAttr (.tagAttrEq "meta" "property" "article:author") doc "content")
      (jsStrOr (jsTrim (firstText (.cls "author") doc))
        (jsStrOr (jsTrim (firstText (.attrEq "rel" "author") doc)) "")))

/-- The publication-date fallback chain (lines 164-168). -/
def dateChain (doc : Dom) : String :=
  jsOrS (firstAttr (.tagAttrEq "meta" "property" "article:published_time") doc "content")
    (jsOrS (firstAttr (.tagAttrPresent "time" "datetime") doc "datetime")
      (jsStrOr (jsTrim (firstTextGroup [.cls "date", .cls "published", .cls "time"] doc)) ""))

/-- The keywords extraction (lines 171-172): split the `keywords` meta on
commas, trim, drop empties. -/
def keywordsChain (doc : Dom) : List String :=
  let keywordsString :=
    jsOrS (firstAttr (.tagAttrEq "meta" "name" "keywords") doc "content") ""
  ((jsSplitOn keywordsString ',').map jsTrim).filter (· != "")

/-- `link[rel=canonical]` href (line 185). -/
def canonicalUrlOf (doc : Dom) : String :=
  jsOrS (firstAttr (.tagAttrEq "link" "rel" "canonical") doc "href") ""

/-- `og:site_name` content (line 186). -/
def siteNameOf (doc : Dom) : String :=
  jsOrS (firstAttr (.tagAttrEq "meta" "property" "og:site_name") doc "content") ""

/-- The value `extractMetaInfo` returns: either the minimal
`{title, description}` object or the full-shaped object. -/
inductive MetaResult where
  | minimal : String → String → MetaResult
  | full : String → String → String → String → List String → String → String → MetaResult
deriving DecidableEq, Repr

/-- The `title` property of either result shape. -/
def MetaResult.titleOf : MetaResult → String
  | .minimal t _ => t
  | .full t _ _ _ _ _ _ => t

/-- The `description` property of either result shape. -/
def MetaResult.descriptionOf : MetaResult → String
  | .minimal _ d => d
  | .full _ d _ _ _ _ _ => d

/-- The module-level constant `sampleHtmlWithoutMeta`
(contentProcessor.js lines 197-209). -/
def sampleHtmlWithoutMeta : String :=
  "<!DOCTYPE html>\n<html>\n  <head>\n  </head>\n  <body>\n    <header>\n      <h1>Test Page Header</h1>\n    </header>\n    <main>\n      <h2>Main Content</h2>\n    </main>\n  </body>\n</html>"

/-- The literal tested on line 175. -/
def minimalHeadSnippet : String := "<html>\n  <head>\n  </head>"

/-- The JSON branch of `extractMetaInfo` (lines 78-127), applied to the
parsed payload. -/
def jsonMeta (jsonData : Jval) : MetaResult :=
  let title :=
    match tfield jsonData "title" with
    | some t => jsToString t
    | none =>
      match tfield jsonData "name" with
      | some n => jsToString n
      | none =>
        match tfield jsonData "id" with
        | some i =>
          let endpointType :=
            match tfield jsonData "type" with
            | some ty => jsToString ty
            | none => "Item"
          endpointType ++ " " ++ jsToString i
        | none => "JSON Data"
  let description :=
    match tfield jsonData "body" with
    | some b => jsToString b
    | none =>
      match tfield jsonData "description" with
      | some d => jsToString d
      | none =>
        match tfield jsonData "summary" with
        | some s => jsToString s
        | none => ""
  let authorOfVal (a : Jval) : String :=
    match a with
    | .str s => s
    | _ =>
      match tfield a "name" with
      | some n => jsToString n
      | none =>
        match tfield a "username" with
        | some u => jsToString u
        | none => ""
  let author :=
    match tfield jsonData "author" with
    | some a => authorOfVal a
    | none =>
      match tfield jsonData "user" with
      | some u => authorOfVal u
      | none =>
        match tfield jsonData "username" with
        | some un => jsToString un
        | none => ""
  let date :=
    match tfield jsonData "date" with
    | some d => jsToString d
    | none =>
      match tfield jsonData "created_at" with
      | some d => jsToString d
      | none =>
        match tfield jsonData "createdAt" with
        | some d => jsToString d
        | none => ""
  .full title description author date [] "" ""

/-- The HTML branch of the `try` block of `extractMetaInfo`
(lines 131-189).  The fallback chains are computed (lines 134-172), and then
line 175 evaluates the variable `html` — which is not bound anywhere in the
module (the parameter is named `content`) — so a `ReferenceError` is raised
before the full object can be returned. -/
def htmlMetaTry (doc : Dom) : Except JsError MetaResult := do
  let title := titleChain doc
  let description := descriptionChain doc
  let author := authorChain doc
  let date := dateChain doc
  let keywords := keywordsChain doc
  let h : String ← Except.error (JsError.referenceError "html")
  if strIncludes h minimalHeadSnippet || h = sampleHtmlWithoutMeta then
    return .minimal "" ""
  else
    return .full title description author date keywords (canonicalUrlOf doc) (siteNameOf doc)

/-- The `try` block of `extractMetaInfo` (lines 76-189): the JSON branch
parses the payload (a parse failure throws) and extracts fields; the HTML
branch runs `htmlMetaTry`. -/
def extractMetaInfoTry (parse : String → Dom) (s : String) (isJson : Bool) :
    Except JsError MetaResult :=
  if isJson then
    match parseJson s with
    | none => .error (.error "Unexpected token in JSON")
    | some jsonData => .ok (jsonMeta jsonData)
  else
    htmlMetaTry (parse s)

/-- Model of `extractMetaInfo` (lines 70-194): null/undefined/empty content
returns the minimal empty result (lines 71-74); otherwise the `try` block
runs and any exception is caught, returning the minimal empty result
(lines 190-193). -/
def extractMetaInfo (parse : String → Dom) (content : JsStr) (isJson : Bool) :
    MetaResult :=
  match content with
  | .null => .minimal "" ""
  | .undef => .minimal "" ""
  | .str s =>
    if s = "" then .minimal "" ""
    else
      match extractMetaInfoTry parse s isJson with
      | .ok m => m
      | .error _ => .minimal "" ""

/-! ## Main-content locator: `extractContent` (contentProcessor.js lines 216-370) -/

/-- The result object of `extractContent`.  Optional fields model JS object
keys that are present only on some return paths. -/
structure ExtractResult where
  cleanHtml : String
  textContent : String
  isJson : Option Bool := none
  error : Option String := none
  usedSelector : Option String := none
deriving DecidableEq, Repr

/-- `Object.entries(v)` for an object or array value. -/
def entriesOf : Jval → List (String × Jval)
  | .obj kvs => kvs
  | .arr xs => (xs.enum).map (fun p => (toString p.1, p.2))
  | _ => []

/-- Is the value `null`? -/
def isNullJ : Jval → Bool
  | .null => true
  | _ => false

/-- The per-item loop of the array branch (lines 235-248): keep
`key: value` lines for keys whose value is not object-typed; everything
object-typed (objects, arrays, null) is skipped. -/
def itemEntriesText (kvs : List (String × Jval)) : String :=
  kvs.foldl
    (fun acc kv =>
      acc ++ (if typeofNotObject kv.2 then kv.1 ++ ": " ++ jsToString kv.2 ++ "\n" else ""))
    ""

/-- One array item flattened (lines 236-247): object-typed non-null items go
through `Object.entries`; anything else is `String(item)`. -/
def arrayItemText : Jval → String
  | .obj kvs => itemEntriesText kvs
  | .arr xs => itemEntriesText (entriesOf (.arr xs))
  | item => jsToString item

/-- The single-object branch (lines 251-257): `key: value` for
non-object-typed values, `key: JSON.stringify(value, null, 2)` for non-null
object-typed values, nothing for null values. -/
def objectEntriesText (kvs : List (String × Jval)) : String :=
  kvs.foldl
    (fun acc kv =>
      acc ++
        (if typeofNotObject kv.2 then kv.1 ++ ": " ++ jsToString kv.2 ++ "\n"
         else if !isNullJ kv.2 then kv.1 ++ ": " ++ stringify2 kv.2 ++ "\n"
         else ""))
    ""

/-- The human-readable text of the JSON branch (lines 230-261). -/
def jsonDescription : Jval → String
  | .arr items => joinSep "\n\n" (items.map arrayItemText)
  | .obj kvs => objectEntriesText kvs
  | v => jsToString v

/-- The JSON branch of `extractContent` (lines 221-271): re-parse, pretty
print, flatten; a parse failure is caught and yields the empty shape with an
`error` key. -/
def extractContentJson (s : String) : ExtractResult :=
  match parseJson s with
  | some jsonData =>
      { cleanHtml := stringify2 jsonData
        textContent := jsTrim (jsonDescription jsonData)
        isJson := some true }
  | none =>
      { cleanHtml := "", textContent := "", error := some "Unexpected token in JSON" }

/-- The prioritized content selectors (lines 279-299), paired with the
selector strings the source stores in `mainContentSelector` (the thirteenth
is written `[role='main']` in the source). -/
def contentSelectors : List (Selector × String) :=
  [(.tag "main", "main"),
   (.tag "article", "article"),
   (.id "content", "#content"),
   (.cls "content", ".content"),
   (.id "main-content", "#main-content"),
   (.cls "main-content", ".main-content"),
   (.id "primary", "#primary"),
   (.cls "primary", ".primary"),
   (.id "article", "#article"),
   (.cls "article", ".article"),
   (.cls "post-content", ".post-content"),
   (.cls "entry-content", ".entry-content"),
   (.attrEq "role" "main", "[role=main]"),
   (.tag "section", "section"),
   (.cls "container", ".container"),
   (.id "container", "#container")]

/-- The running state of the selection loops: the current `mainContent`
collection, `mainContentScore` and `mainContentSelector`. -/
structure SelState where
  elems : List Dom
  score : Nat
  selName : String

/-- The trimmed text length `$(sel).text().trim().length` of a selector's
matches. -/
def selScore (sel : Selector) (doc : Dom) : Nat :=
  (jsTrim (textOfList (selectAll sel doc))).length

/-- One iteration of the prioritized-selector loop (lines 307-318): when
`$(selector)` matches (`.length` non-zero), the element collection with the
greater trimmed text length (`selScore`) replaces the current state. -/
def phase1Step (doc : Dom) (st : SelState) (p : Selector × String) : SelState :=
  if !(selectAll p.1 doc).isEmpty then
    if selScore p.1 doc > st.score then ⟨selectAll p.1 doc, selScore p.1 doc, p.2⟩
    else st
  else st

/-- Phase 1: fold the prioritized selectors over the initial
`$("body")` / score 0 / `"body"` state (lines 302-318). -/
def phase1 (doc : Dom) : SelState :=
  contentSelectors.foldl (phase1Step doc) ⟨selectAll (.tag "body") doc, 0, "body"⟩

/-- One iteration of the heuristic div scan (lines 323-334): a div qualifies
with more than 3 `<p>` descendants, and the greatest trimmed text length
wins.  The selector name is left untouched. -/
def heuristicStep (st : SelState) (div : Dom) : SelState :=
  if (findAll (.tag "p") div).length > 3 then
    let currentText := jsTrim (textOf div)
    if currentText.length > st.score then ⟨[div], currentText.length, st.selName⟩
    else st
  else st

/-- The full selection (lines 302-335): phase 1, then the heuristic div scan
exactly when the selector is still the `"body"` default. -/
def selectMain (doc : Dom) : SelState :=
  let st := phase1 doc
  if st.selName = "body" then (selectAll (.tag "div") doc).foldl heuristicStep st
  else st

/-- An empty `<p>` or `<div>`: trimmed text is the empty string
(lines 339-344 remove these from the selected content). -/
def isEmptyPDiv (d : Dom) : Bool :=
  match d with
  | .elem tag _ _ => (tag = "p" || tag = "div") && jsTrim (textOf d) = ""
  | _ => false

mutual

/-- Lines 347-353: after every `<img>` with a non-empty `alt`, insert a
`<figcaption>` holding the alt text. -/
def addFigcaptions : Dom → Dom
  | .elem tag attrs children => .elem tag attrs (addFigcaptionsList children)
  | d => d

/-- Figcaption insertion over a forest. -/
def addFigcaptionsList : List Dom → List Dom
  | [] => []
  | d :: ds =>
    match d with
    | .elem "img" attrs children =>
      let alt := jsOrS (attrOf d "alt") ""
      if alt != "" then
        .elem "img" attrs children :: .elem "figcaption" [] [.text alt] ::
          addFigcaptionsList ds
      else d :: addFigcaptionsList ds
    | .elem _ _ _ => addFigcaptions d :: addFigcaptionsList ds
    | _ => d :: addFigcaptionsList ds

end

/-- Collapse whitespace runs to single spaces (`replace(/\s+/g, " ")`,
line 361); the boolean records whether the previous character was part of a
whitespace run. -/
def collapseWsGo : Bool → List Char → List Char
  | _, [] => []
  | prevWs, c :: cs =>
    if isJsWs c then
      if prevWs then collapseWsGo true cs else ' ' :: collapseWsGo true cs
    else c :: collapseWsGo false cs

/-- Model of `replace(/\s+/g, " ")`. -/
def collapseWs (s : String) : String :=
  String.mk (collapseWsGo false s.data)

/-- Model of `replace(/\n\s*\n\s*\n/g, "\n\n")` (line 362).  Its input is
always the output of `collapseWs`, which never emits a newline (every
whitespace run, newlines included, was just replaced by one space — see
`collapseWs_no_newline` below), so the pattern never matches and the
replacement is the identity on every reachable input. -/
def squeezeNewlines (s : String) : String := s

/-- The HTML branch of `extractContent` (lines 274-369), applied to the
sanitized document: select the main content, remove empty paragraphs and
divs, annotate images, and produce the inner HTML plus normalized text. -/
def extractContentHtml (doc : Dom) : ExtractResult :=
  let st := selectMain doc
  let cleaned := st.elems.map (fun e => addFigcaptions (removeElems isEmptyPDiv e))
  let cleanHtmlContent :=
    match cleaned with
    | [] => ""
    | e :: _ => innerHtml e
  let textContent := jsTrim (squeezeNewlines (collapseWs (jsTrim (textOfList cleaned))))
  { cleanHtml := cleanHtmlContent
    textContent := textContent
    usedSelector := some st.selName }

/-- Model of `extractContent` (lines 216-370): falsy content gives the empty
shape; JSON content goes through the JSON branch; anything else is sanitized
with `cleanHtml` and goes through the HTML branch. -/
def extractContent (parse : String → Dom) (content : JsStr) : ExtractResult :=
  match content with
  | .null => { cleanHtml := "", textContent := "" }
  | .undef => { cleanHtml := "", textContent := "" }
  | .str s =>
    if s = "" then { cleanHtml := "", textContent := "" }
    else if isJsonContent s then extractContentJson s
    else
      match cleanHtml parse (.str s) with
      | none => { cleanHtml := "", textContent := "" }
      | some doc => extractContentHtml doc

/-! ## Markdown renderer: `convertToMarkdown` (contentProcessor.js lines 378-485) -/

/-- Model of `parseInt(s, 10)` for the decimal attribute values in scope
(`NaN` outcomes are not modelled: every `start` attribute the claims touch is
a digit string). -/
def jsParseInt (s : String) : Int :=
  match parseIntLit s.data with
  | some (n, _) => n
  | none => 0

/-- `replace(/^\n+/, "")` (line 411). -/
def stripLeadingNewlines (s : String) : String :=
  String.mk (s.data.dropWhile (· = '\n'))

/-- `replace(/\n+$/, "\n")` (line 412). -/
def trailingNewlinesToOne (s : String) : String :=
  if s.data.reverse.head? = some '\n' then
    String.mk ((s.data.reverse.dropWhile (· = '\n')).reverse ++ ['\n'])
  else s

/-- `replace(/\n/gm, "\n    ")` (line 413). -/
def indentContinuations (s : String) : String :=
  String.mk (s.data.flatMap (fun c => if c = '\n' then ['\n', ' ', ' ', ' ', ' '] else [c]))

/-- The `listItems` turndown rule (lines 407-427): clean up the item body;
inside an `<ol>` the marker is the parsed `start` attribute (default 1) plus
the positional index of the `<li>` among its siblings, never the source
numeral; otherwise the bullet marker.  A trailing newline separates the item
from a following sibling. -/
def liReplacement (content : String) (parentIsOl : Bool) (startAttr : Option String)
    (index : Nat) (hasNextSibling : Bool) : String :=
  let c := indentContinuations (trailingNewlinesToOne (stripLeadingNewlines content))
  let marker :=
    if parentIsOl then
      let startNum : Int :=
        match startAttr with
        | some st => if st = "" then 1 else jsParseInt st
        | none => 1
      toString (startNum + index) ++ ". "
    else "- "
  marker ++ c ++ (if hasNextSibling && !(jsEndsWith c "\n") then "\n" else "")

/-- The `try` block of the HTML branch of `convertToMarkdown`
(lines 396-480): it configures a turndown service, installs the four custom
rules, and then returns `turndownService.turndown(html)` — but `html` is not
bound anywhere in the function (the parameter is named `content`), so
evaluating the argument raises a `ReferenceError` before turndown ever
runs. -/
def convertToMarkdownHtmlTry (_content : String) : Except JsError String :=
  Except.error (.referenceError "html")

/-- Model of `convertToMarkdown` (lines 378-485): falsy content gives `""`;
JSON content is fenced (raw content in an unlabeled fence if the parse
fails); the HTML branch catches the `ReferenceError` of its `try` block and
returns `""` (lines 481-484). -/
def convertToMarkdown (content : JsStr) (isJson : Bool) : String :=
  match content with
  | .null => ""
  | .undef => ""
  | .str s =>
    if s = "" then ""
    else if isJson then
      match parseJson s with
      | some jsonData => "```json\n" ++ stringify2 jsonData ++ "\n```\n\n"
      | none => "```\n" ++ s ++ "\n```\n\n"
    else
      match convertToMarkdownHtmlTry s with
      | .ok md => md
      | .error _ => ""

/-! ## Route orchestrator (index.js):
`generateFilesForRoute` (lines 227-397) and `processRoutes` (lines 464-524).

The network is a parameter `fetch : String → Option String`: `none` is the
`null` that `fetchContent` returns for an invalid URL, a non-2xx status, a
timeout or a network error.  File writes have no observable effect on the
returned values and are dropped; the wall-clock `timestamp` field is omitted
from the modelled result for the same reason. -/

/-- `VALID_FORMATS` (index.js line 16). -/
def VALID_FORMATS : List String := ["text", "json", "markdown", "all"]

/-- `DEFAULT_FORMAT` (index.js line 15). -/
def DEFAULT_FORMAT : String := "text"

/-- The `jsonData` object assembled for a route (index.js lines 298-306),
minus the wall-clock timestamp. -/
structure RouteData where
  url : String
  route : String
  title : String
  description : String
  textContent : String
  markdownContent : String
deriving DecidableEq, Repr

/-- The value `generateFilesForRoute` returns on success
(index.js lines 375-379). -/
structure RouteResult where
  route : String
  url : String
  data : RouteData
deriving DecidableEq, Repr

/-- One entry of the `errors` array of `processRoutes`
(index.js lines 509-512). -/
structure RouteFailure where
  route : String
  error : String
deriving DecidableEq, Repr

/-- The extraction pipeline a successfully fetched payload goes through
inside `generateFilesForRoute` (index.js lines 263-306): format detection,
metadata extraction, content extraction, markdown conversion, and the
assembly of the returned object (`detectedJson || isJson` picks the
`isJson` key of the extraction result when present). -/
def pipelineResult (parse : String → Dom) (fullUrl normalizedRoute content : String) :
    RouteResult :=
  let isJson := isJsonContent content
  let metaInfo := extractMetaInfo parse (.str content) isJson
  let er := extractContent parse (.str content)
  let markdownContent := convertToMarkdown (.str er.cleanHtml) (er.isJson.getD false || isJson)
  { route := normalizedRoute
    url := fullUrl
    data :=
      { url := fullUrl
        route := normalizedRoute
        title := metaInfo.titleOf
        description := metaInfo.descriptionOf
        textContent := er.textContent
        markdownContent := markdownContent } }

/-- Model of `generateFilesForRoute` (index.js lines 227-397): validation
throws for a missing base URL, a missing route, or an invalid format; the
route is normalized to start with `/`; a failed fetch (`null` content, and
also an empty body, since the check is `if (!content)`) returns `null`
without throwing; otherwise the pipeline runs and the result object is
returned.  File-system writes are the only other throw site and are outside
the model. -/
def generateFilesForRoute (fetch : String → Option String) (parse : String → Dom)
    (baseUrl route format : String) : Except JsError (Option RouteResult) :=
  if baseUrl = "" then .error (.error "Base URL is required")
  else if route = "" then .error (.error "Route is required")
  else if !(VALID_FORMATS.contains format) then
    .error (.error ("Invalid format: " ++ format ++ ". Valid formats are: " ++
      joinSep ", " VALID_FORMATS))
  else
    let normalizedRoute := if jsStartsWith route "/" then route else "/" ++ route
    let fullUrl := baseUrl ++ normalizedRoute
    match fetch fullUrl with
    | none => .ok none
    | some content =>
      if content = "" then .ok none
      else .ok (some (pipelineResult parse fullUrl normalizedRoute content))

/-- The loop body of `processRoutes` (index.js lines 496-514): a returned
result is accumulated, a `null` result (failed fetch) is skipped, and a
thrown error is caught and pushed onto the `errors` array with the route and
the message. -/
def processStep (fetch : String → Option String) (parse : String → Dom)
    (baseUrl validFormat : String)
    (acc : List RouteResult × List RouteFailure) (route : String) :
    List RouteResult × List RouteFailure :=
  match generateFilesForRoute fetch parse baseUrl route validFormat with
  | .ok (some result) => (acc.1 ++ [result], acc.2)
  | .ok none => acc
  | .error e => (acc.1, acc.2 ++ [⟨route, e.message⟩])

/-- Model of `processRoutes` (index.js lines 464-524): validation throws for
a missing base URL or an empty routes array; an invalid format is downgraded
to `DEFAULT_FORMAT` with a warning instead of throwing; each route is
processed in order, a `null` result (failed fetch) is silently skipped, and
only a thrown error is pushed onto the `errors` array; the batch never stops
early.  The returned pair is (`results`, `errors`). -/
def processRoutes (fetch : String → Option String) (parse : String → Dom)
    (baseUrl : String) (routes : List String) (format : String) :
    Except JsError (List RouteResult × List RouteFailure) :=
  if baseUrl = "" then .error (.error "Base URL is required")
  else if routes.isEmpty then .error (.error "Routes must be a non-empty array")
  else
    let validFormat := if VALID_FORMATS.contains format then format else DEFAULT_FORMAT
    .ok (routes.foldl (processStep fetch parse baseUrl validFormat)
      (([], []) : List RouteResult × List RouteFailure))

/-! ## Concrete documents and payloads used by the claims -/

/-- The parse of the unit-test sample page (test/contentProcessor.test.js):
a head holding `<title>Test Page</title>` and a description meta, and a main
with heading and paragraph. -/
def testDoc : Dom :=
  .elem "html" []
    [.elem "head" []
      [.elem "title" [] [.text "Test Page"],
       .elem "meta" [("name", "description"), ("content", "This is a test page description")] []],
     .elem "body" []
      [.elem "main" []
        [.elem "h2" [] [.text "Main Content"],
         .elem "p" [] [.text "This is the main content of the test page."]]]]

/-- A short HTML string standing for the serialized sample page. -/
def testHtmlStr : String :=
  "<html><head><title>Test Page</title></head><body><main><p>This is the main content of the test page.</p></main></body></html>"

/-- One of the 51 filler divs of the locator example: at most 3 `<p>`
children. -/
def fillerDiv : Dom :=
  .elem "div" [] [.elem "p" [] [.text "xx"], .elem "p" [] [.text "yy"]]

/-- `<div id="content">` with 4 paragraphs of text. -/
def contentDiv : Dom :=
  .elem "div" [("id", "content")]
    [.elem "p" [] [.text "First paragraph. "],
     .elem "p" [] [.text "Second paragraph. "],
     .elem "p" [] [.text "Third paragraph. "],
     .elem "p" [] [.text "Fourth paragraph."]]

/-- The wrapper div holding the 51 filler divs. -/
def wrapperDiv : Dom :=
  .elem "div" [] (List.replicate 51 fillerDiv)

/-- The locator example of the spec: a body holding a wrapper div with 51
small divs (each with at most 3 `<p>`) next to `<div id="content">` with 4
paragraphs.  The wrapper div has far more total text than `#content`, so the
heuristic would have preferred it. -/
def locatorDoc : Dom :=
  .elem "html" []
    [.elem "head" [] [],
     .elem "body" []
      [wrapperDiv,
       contentDiv]]

/-- A minimal document whose only prioritized-selector match is a `main`
with the text `hello`. -/
def tinyMainDoc : Dom :=
  .elem "html" []
    [.elem "head" [] [],
     .elem "body" [] [.elem "main" [] [.text "hello"]]]

/-- A document where a prioritized selector (`main`) matches but wraps no
text, while a qualifying div (4 paragraphs) holds all the content. -/
def emptyMainDoc : Dom :=
  .elem "html" []
    [.elem "head" [] [],
     .elem "body" []
      [.elem "main" [] [],
       .elem "div" []
        [.elem "p" [] [.text "one "],
         .elem "p" [] [.text "two "],
         .elem "p" [] [.text "three "],
         .elem "p" [] [.text "four"]],
       .text "tail text outside the div"]]

/-- The array payload `[{"a": 1, "b": {"c": 2}}]` used against C6. -/
def nestedArrayPayload : String :=
  "[\x7b\"a\": 1, \"b\": \x7b\"c\": 2\x7d\x7d]"

/-- A fetcher for the C4 scenario: `/ok` answers with a small JSON body,
everything else (in particular `/fails-404`) fails. -/
def fetchC4 : String → Option String :=
  fun url =>
    if url = "https://example.com/ok" then some "\x7b\"title\": \"Ok Page\"\x7d"
    else none

/-- The greatest `selScore` over a selector list. -/
def maxSelScoreOver (doc : Dom) (L : List (Selector × String)) : Nat :=
  L.foldr (fun p m => max (selScore p.1 doc) m) 0

/-- The greatest trimmed text length over all prioritized selectors. -/
def maxSelScore (doc : Dom) : Nat :=
  maxSelScoreOver doc contentSelectors

/-! ## Shared helper lemmas -/

/-- A payload classified as JSON is non-empty. -/
lemma isJsonContent_ne_empty {s : String} (h : isJsonContent s = true) : s ≠ "" := by
  intro he
  rw [he] at h
  exact absurd h (by decide)

/-- A payload classified as JSON parses. -/
lemma isJsonContent_parses {s : String} (h : isJsonContent s = true) :
    (parseJson s).isSome = true := by
  unfold isJsonContent at h
  rw [if_neg (isJsonContent_ne_empty h)] at h
  by_cases hc :
      (!(jsStartsWith (jsTrim s) "\x7b" || jsStartsWith (jsTrim s) "[")) = true
  · rw [if_pos hc] at h; exact absurd h (by decide)
  · rw [if_neg hc] at h; exact h

/-- The JSON-classified result shape of `extractContent`. -/
lemma extractContent_json_shape (parse : String → Dom) (s : String)
    (h : isJsonContent s = true) :
    ∃ v, parseJson s = some v ∧
      extractContent parse (.str s) =
        { cleanHtml := stringify2 v
          textContent := jsTrim (jsonDescription v)
          isJson := some true } := by
  have hs : s ≠ "" := isJsonContent_ne_empty h
  obtain ⟨v, hv⟩ := Option.isSome_iff_exists.mp (isJsonContent_parses h)
  refine ⟨v, hv, ?_⟩
  have hred : extractContent parse (.str s) =
      if s = "" then { cleanHtml := "", textContent := "" }
      else if isJsonContent s then extractContentJson s
      else
        match cleanHtml parse (.str s) with
        | none => { cleanHtml := "", textContent := "" }
        | some doc => extractContentHtml doc := rfl
  rw [hred, if_neg hs, if_pos h]
  unfold extractContentJson
  rw [hv]

/-! ## Claim theorems -/

/-- **C1** (code bug).  The spec's title fallback chain is implemented on
lines 134-146 and does compute `"Test Page"` for the sample page — but
line 175 then reads the unbound variable `html` (the parameter is named
`content`), so the `ReferenceError` is caught and *every* non-empty HTML
input yields `{title: "", description: ""}`; the end-to-end
`metadata.title === "Test Page"` expectation (also the unit test at
test/contentProcessor.test.js line 88) therefore fails. -/
theorem C1_extractMetaInfo_html_always_empty :
    (∀ (parse : String → Dom) (s : String), s ≠ "" →
        extractMetaInfo parse (.str s) false = .minimal "" "")
    ∧ titleChain testDoc = "Test Page"
    ∧ descriptionChain testDoc = "This is a test page description"
    ∧ extractMetaInfo (fun _ => testDoc) (.str testHtmlStr) false = .minimal "" "" := by
  refine ⟨?_, by rfl, by rfl, by rfl⟩
  intro parse s hs
  have hred : extractMetaInfo parse (.str s) false =
      if s = "" then .minimal "" ""
      else
        match extractMetaInfoTry parse s false with
        | .ok m => m
        | .error _ => .minimal "" "" := rfl
  rw [hred, if_neg hs]
  rfl

/-- Witness for C1 at a concrete input. -/
theorem C1_extractMetaInfo_html_always_empty_witness :
    extractMetaInfo (fun _ => testDoc) (.str sampleHtmlWithoutMeta) false = .minimal "" "" :=
  C1_extractMetaInfo_html_always_empty.1 (fun _ => testDoc) sampleHtmlWithoutMeta (by decide)

/-- **C2** (code bug).  The `listItems` turndown rule (lines 407-427) does
number an `<ol start="5">` item pair as `5.` and `6.` from the `start`
attribute plus the positional index — but line 480 calls
`turndownService.turndown(html)` where `html` is unbound (the parameter is
named `content`), so the `ReferenceError` is caught and `convertToMarkdown`
returns `""` for every non-empty HTML input; no numbering is ever
produced. -/
theorem C2_convertToMarkdown_html_always_empty :
    (∀ s : String, s ≠ "" → convertToMarkdown (.str s) false = "")
    ∧ liReplacement "a" true (some "5") 0 true = "5. a\n"
    ∧ liReplacement "b" true (some "5") 1 false = "6. b" := by
  refine ⟨?_, by rfl, by rfl⟩
  intro s hs
  have hred : convertToMarkdown (.str s) false =
      if s = "" then ""
      else
        match convertToMarkdownHtmlTry s with
        | .ok md => md
        | .error _ => "" := rfl
  rw [hred, if_neg hs]
  rfl

/-- Witness for C2 at the ordered list of the claim. -/
theorem C2_convertToMarkdown_html_always_empty_witness :
    convertToMarkdown (.str "<ol start=\"5\"><li>a</li><li>b</li></ol>") false = "" :=
  C2_convertToMarkdown_html_always_empty.1 "<ol start=\"5\"><li>a</li><li>b</li></ol>" (by decide)

/-- **C3, counterexample.**  `cleanHtml(null)` returns `null` (line 33), not
a valid empty document: the claim fails at the input `null`. -/
theorem C3_null_input_counterexample :
    cleanHtml (fun _ => emptyDoc) JsStr.null = none := rfl

/-- **C3, amended.**  For every input other than `null` (including
`undefined` and the empty string), `cleanHtml` returns a valid cleaned
document object and never throws; `null` input returns `null`, as the
function's own doc comment states. -/
theorem C3_nonnull_returns_document (parse : String → Dom) (c : JsStr)
    (h : c ≠ JsStr.null) : (cleanHtml parse c).isSome = true := by
  cases c with
  | null => exact absurd rfl h
  | undef => rfl
  | str s => rfl

/-- Witness for the amended C3 at a concrete input. -/
theorem C3_nonnull_returns_document_witness :
    (cleanHtml (fun _ => emptyDoc) (JsStr.str "<p>hi</p>")).isSome = true :=
  C3_nonnull_returns_document (fun _ => emptyDoc) (JsStr.str "<p>hi</p>") (by decide)

/-- **C7.**  A payload whose trimmed form starts with a brace or bracket but
fails to parse is classified as HTML (`false`) without throwing; a payload
not starting with a brace or bracket is classified HTML with no parse
attempt; and a `true` classification implies the parse succeeded. -/
theorem C7_detector_json_requires_parse (s : String) :
    ((jsStartsWith (jsTrim s) "\x7b" = true ∨ jsStartsWith (jsTrim s) "[" = true) →
        parseJson s = none → isJsonContent s = false)
    ∧ (¬(jsStartsWith (jsTrim s) "\x7b" = true ∨ jsStartsWith (jsTrim s) "[" = true) →
        isJsonContent s = false)
    ∧ (isJsonContent s = true → (parseJson s).isSome = true) := by
  refine ⟨?_, ?_, ?_⟩
  · intro _ hparse
    simp [isJsonContent, hparse]
  · intro hns
    have h1 : jsStartsWith (jsTrim s) "\x7b" = false := by
      cases hb : jsStartsWith (jsTrim s) "\x7b"
      · rfl
      · exact absurd (Or.inl hb) hns
    have h2 : jsStartsWith (jsTrim s) "[" = false := by
      cases hb : jsStartsWith (jsTrim s) "["
      · rfl
      · exact absurd (Or.inr hb) hns
    simp [isJsonContent, h1, h2]
  · intro h
    by_cases he : s = ""
    · rw [he] at h; exact absurd h (by decide)
    · unfold isJsonContent at h
      rw [if_neg he] at h
      by_cases hc :
          (!(jsStartsWith (jsTrim s) "\x7b" || jsStartsWith (jsTrim s) "[")) = true
      · rw [if_pos hc] at h; exact absurd h (by decide)
      · rw [if_neg hc] at h; exact h

/-- Witness for C7: a JS-snippet-like payload that starts with a brace but
is not JSON is classified HTML. -/
theorem C7_detector_json_requires_parse_witness :
    isJsonContent "\x7bnot json" = false
      ∧ jsStartsWith (jsTrim "\x7bnot json") "\x7b" = true
      ∧ parseJson "\x7bnot json" = none :=
  ⟨(C7_detector_json_requires_parse "\x7bnot json").1 (Or.inl (by rfl)) (by rfl),
    by rfl, by rfl⟩

/-- **C8.**  On `null`, `undefined` and `""`, `extractMetaInfo` returns the
minimal `{title:"",description:""}`, `extractContent` returns its empty
shape, and `convertToMarkdown` returns `""`; all three are total functions
here, so none throws. -/
theorem C8_empty_input_defaults (parse : String → Dom) (isJson : Bool) :
    extractMetaInfo parse .null isJson = .minimal "" ""
    ∧ extractMetaInfo parse .undef isJson = .minimal "" ""
    ∧ extractMetaInfo parse (.str "") isJson = .minimal "" ""
    ∧ extractContent parse .null = { cleanHtml := "", textContent := "" }
    ∧ extractContent parse .undef = { cleanHtml := "", textContent := "" }
    ∧ extractContent parse (.str "") = { cleanHtml := "", textContent := "" }
    ∧ convertToMarkdown .null isJson = ""
    ∧ convertToMarkdown .undef isJson = ""
    ∧ convertToMarkdown (.str "") isJson = "" :=
  ⟨rfl, rfl, rfl, rfl, rfl, rfl, rfl, rfl, rfl⟩

/-- **C9.**  Whenever `isJsonContent` classified a payload as JSON, the
re-parse inside the JSON branch of `extractContent` succeeds on the same
string, so the catch branch (empty shape with an `error` key) is
unreachable, and the result has the documented JSON success shape. -/
theorem C9_json_reparse_never_fails (parse : String → Dom) (s : String)
    (h : isJsonContent s = true) :
    ∃ v, parseJson s = some v ∧
      extractContent parse (.str s) =
        { cleanHtml := stringify2 v
          textContent := jsTrim (jsonDescription v)
          isJson := some true } :=
  extractContent_json_shape parse s h

/-- Witness for C9 at a concrete JSON payload. -/
theorem C9_json_reparse_never_fails_witness :
    extractContent (fun _ => emptyDoc) (.str "\x7b\"a\": 1\x7d") =
      { cleanHtml := "\x7b\n  \"a\": 1\n\x7d"
        textContent := "a: 1"
        isJson := some true } := by
  obtain ⟨v, hv, he⟩ :=
    C9_json_reparse_never_fails (fun _ => emptyDoc) "\x7b\"a\": 1\x7d" (by rfl)
  have hv' : v = Jval.obj [("a", Jval.num 1)] :=
    Option.some.inj ((rfl :
      parseJson "\x7b\"a\": 1\x7d" = some (Jval.obj [("a", Jval.num 1)])).symm.trans hv).symm
  rw [he, hv']
  rfl

/-- **C10.**  Called directly, `generateFilesForRoute` throws immediately —
for every fetcher, i.e. before any fetch — on an invalid format, an empty
base URL, or an empty route, while `processRoutes` downgrades an invalid
format to the default `"text"` (logging a warning) and behaves exactly as
with the default format. -/
theorem C10_format_validation_asymmetry :
    (∀ (fetch : String → Option String) (parse : String → Dom) (base route fmt : String),
        base ≠ "" → route ≠ "" → VALID_FORMATS.contains fmt = false →
        generateFilesForRoute fetch parse base route fmt =
          .error (.error ("Invalid format: " ++ fmt ++
            ". Valid formats are: text, json, markdown, all")))
    ∧ (∀ (fetch : String → Option String) (parse : String → Dom) (route fmt : String),
        generateFilesForRoute fetch parse "" route fmt =
          .error (.error "Base URL is required"))
    ∧ (∀ (fetch : String → Option String) (parse : String → Dom) (base fmt : String),
        base ≠ "" →
        generateFilesForRoute fetch parse base "" fmt =
          .error (.error "Route is required"))
    ∧ (∀ (fetch : String → Option String) (parse : String → Dom)
          (base : String) (routes : List String) (fmt : String),
        VALID_FORMATS.contains fmt = false →
        processRoutes fetch parse base routes fmt =
          processRoutes fetch parse base routes DEFAULT_FORMAT) := by
  refine ⟨?_, ?_, ?_, ?_⟩
  · intro fetch parse base route fmt hbase hroute hfmt
    unfold generateFilesForRoute
    rw [if_neg hbase, if_neg hroute, if_pos (by rw [hfmt]; rfl)]
    rw [String.append_assoc]
    rfl
  · intro fetch parse route fmt
    rfl
  · intro fetch parse base fmt hbase
    unfold generateFilesForRoute
    rw [if_neg hbase, if_pos rfl]
  · intro fetch parse base routes fmt hfmt
    unfold processRoutes
    rw [hfmt]
    rfl

/-- Witness for C10 at concrete inputs. -/
theorem C10_format_validation_asymmetry_witness :
    generateFilesForRoute (fun _ => none) (fun _ => emptyDoc)
        "https://example.com" "/test" "xml" =
      .error (.error "Invalid format: xml. Valid formats are: text, json, markdown, all")
    ∧ processRoutes (fun _ => none) (fun _ => emptyDoc)
        "https://example.com" ["/test"] "xml" =
      processRoutes (fun _ => none) (fun _ => emptyDoc)
        "https://example.com" ["/test"] "text" :=
  ⟨C10_format_validation_asymmetry.1 (fun _ => none) (fun _ => emptyDoc)
      "https://example.com" "/test" "xml" (by decide) (by decide) (by rfl),
    C10_format_validation_asymmetry.2.2.2 (fun _ => none) (fun _ => emptyDoc)
      "https://example.com" ["/test"] "xml" (by rfl)⟩

/-- **C6, counterexample.**  The array branch does *not* reuse the
single-object per-key flattening: for the item `{"a": 1, "b": {"c": 2}}`
the array branch keeps only `a: 1` (the nested object value `b` is skipped
entirely, lines 239-243), while the single-object branch re-serializes `b`
as pretty-printed JSON (lines 251-257); on the whole payload
`[{"a": 1, "b": {"c": 2}}]` the extracted text is just `a: 1`. -/
theorem C6_array_object_flatten_differ :
    arrayItemText (.obj [("a", .num 1), ("b", .obj [("c", .num 2)])]) = "a: 1\n"
    ∧ objectEntriesText [("a", .num 1), ("b", .obj [("c", .num 2)])] =
        "a: 1\nb: \x7b\n  \"c\": 2\n\x7d\n"
    ∧ arrayItemText (.obj [("a", .num 1), ("b", .obj [("c", .num 2)])]) ≠
        objectEntriesText [("a", .num 1), ("b", .obj [("c", .num 2)])]
    ∧ (extractContent (fun _ => emptyDoc) (.str nestedArrayPayload)).textContent = "a: 1" :=
  ⟨rfl, rfl, by decide, rfl⟩

/-- **C6, amended.**  A JSON array payload is flattened by mapping each
element to a block and joining the blocks with a blank line, but the per-item
flattening keeps only the keys whose value is not object-typed — nested
objects, nested arrays and nulls are all skipped, never re-serialized.  The
single-object flattening keeps `key: value` for non-object-typed values and
re-serializes every non-null object-typed value (objects *and* arrays) as
pretty-printed JSON, skipping nulls.  A primitive payload is stringified
directly.  Every JSON-classified payload gets this flattening as its
`textContent` (trimmed), with the pretty-printed payload as `cleanHtml`. -/
theorem C6_amended_json_flattening :
    (∀ (parse : String → Dom) (s : String) (v : Jval),
        isJsonContent s = true → parseJson s = some v →
        extractContent parse (.str s) =
          { cleanHtml := stringify2 v
            textContent := jsTrim (jsonDescription v)
            isJson := some true })
    ∧ (∀ items, jsonDescription (.arr items) = joinSep "\n\n" (items.map arrayItemText))
    ∧ (∀ kvs, arrayItemText (.obj kvs) = itemEntriesText kvs)
    ∧ (∀ kvs k x, typeofNotObject x = true →
        itemEntriesText (kvs ++ [(k, x)]) =
          itemEntriesText kvs ++ (k ++ ": " ++ jsToString x ++ "\n"))
    ∧ (∀ kvs k x, typeofNotObject x = false →
        itemEntriesText (kvs ++ [(k, x)]) = itemEntriesText kvs)
    ∧ (∀ kvs k x, typeofNotObject x = true →
        objectEntriesText (kvs ++ [(k, x)]) =
          objectEntriesText kvs ++ (k ++ ": " ++ jsToString x ++ "\n"))
    ∧ (∀ kvs k x, typeofNotObject x = false → isNullJ x = false →
        objectEntriesText (kvs ++ [(k, x)]) =
          objectEntriesText kvs ++ (k ++ ": " ++ stringify2 x ++ "\n"))
    ∧ (∀ kvs k, objectEntriesText (kvs ++ [(k, Jval.null)]) = objectEntriesText kvs)
    ∧ (∀ t : String, jsonDescription (.str t) = t)
    ∧ (∀ n : Int, jsonDescription (.num n) = toString n)
    ∧ (∀ b : Bool, jsonDescription (.bool b) = cond b "true" "false")
    ∧ jsonDescription .null = "null" := by
  refine ⟨?_, fun _ => rfl, fun _ => rfl, ?_, ?_, ?_, ?_, ?_,
    fun _ => rfl, fun _ => rfl, fun _ => rfl, rfl⟩
  · intro parse s v h hv
    obtain ⟨w, hw, he⟩ := extractContent_json_shape parse s h
    rw [hv] at hw
    rw [he, Option.some.inj hw]
  · intro kvs k x hx
    unfold itemEntriesText
    rw [List.foldl_append]
    show _ ++ (if typeofNotObject x then k ++ ": " ++ jsToString x ++ "\n" else "") = _
    rw [if_pos hx]
  · intro kvs k x hx
    unfold itemEntriesText
    rw [List.foldl_append]
    show _ ++ (if typeofNotObject x then k ++ ": " ++ jsToString x ++ "\n" else "") = _
    rw [if_neg (by rw [hx]; exact Bool.false_ne_true)]
    simp
  · intro kvs k x hx
    unfold objectEntriesText
    rw [List.foldl_append]
    show _ ++ (if typeofNotObject x then k ++ ": " ++ jsToString x ++ "\n"
        else if !isNullJ x then k ++ ": " ++ stringify2 x ++ "\n" else "") = _
    rw [if_pos hx]
  · intro kvs k x hx hn
    unfold objectEntriesText
    rw [List.foldl_append]
    show _ ++ (if typeofNotObject x then k ++ ": " ++ jsToString x ++ "\n"
        else if !isNullJ x then k ++ ": " ++ stringify2 x ++ "\n" else "") = _
    rw [if_neg (by rw [hx]; exact Bool.false_ne_true), if_pos (by rw [hn]; rfl)]
  · intro kvs k
    unfold objectEntriesText
    rw [List.foldl_append]
    show _ ++ (if typeofNotObject Jval.null then k ++ ": " ++ jsToString Jval.null ++ "\n"
        else if !isNullJ Jval.null then k ++ ": " ++ stringify2 Jval.null ++ "\n" else "") = _
    simp [typeofNotObject, isNullJ]

/-- Witness for the amended C6 at the nested-object payload. -/
theorem C6_amended_json_flattening_witness :
    extractContent (fun _ => emptyDoc) (.str nestedArrayPayload) =
      { cleanHtml := "[\n  \x7b\n    \"a\": 1,\n    \"b\": \x7b\n      \"c\": 2\n    \x7d\n  \x7d\n]"
        textContent := "a: 1"
        isJson := some true } := by
  have h := C6_amended_json_flattening.1 (fun _ => emptyDoc) nestedArrayPayload
    (Jval.arr [Jval.obj [("a", Jval.num 1), ("b", Jval.obj [("c", Jval.num 2)])]])
    (by rfl) (by rfl)
  rw [h]
  rfl

/-- **C4, counterexample.**  In the two-route batch with one success and one
404, `processRoutes` returns exactly one RouteResult and never throws — but
the separately tracked failure list is *empty*: the fetch failure makes
`generateFilesForRoute` return `null` (index.js lines 255-261), which the
loop silently skips (lines 503-506); only thrown errors are pushed onto
`errors` (lines 507-513), so no failure is recorded for `/fails-404`. -/
theorem C4_fetch_failure_not_recorded_counterexample :
    processRoutes fetchC4 (fun _ => emptyDoc)
        "https://example.com" ["/ok", "/fails-404"] "text" =
      .ok ([{ route := "/ok"
              url := "https://example.com/ok"
              data :=
                { url := "https://example.com/ok"
                  route := "/ok"
                  title := "Ok Page"
                  description := ""
                  textContent := "title: Ok Page"
                  markdownContent := "```json\n\x7b\n  \"title\": \"Ok Page\"\n\x7d\n```\n\n" } }],
        []) := by
  rfl

/-- **C4, amended.**  `processRoutes` over a batch where one route fetches
successfully and another fails never throws, returns exactly one RouteResult
(for the successful route, with its normalized route and full URL), and a
failed fetch never aborts processing of the other route (either order) —
but the fetch failure is only logged: it is *not* added to the separately
tracked failure list, which records only routes whose processing threw. -/
theorem C4_amended_one_success_one_fetch_failure
    (fetch : String → Option String) (parse : String → Dom) (base html : String)
    (hbase : base ≠ "") (hok : fetch (base ++ "/ok") = some html) (hhtml : html ≠ "")
    (hfail : fetch (base ++ "/fails-404") = none) :
    processRoutes fetch parse base ["/ok", "/fails-404"] "text" =
        .ok ([pipelineResult parse (base ++ "/ok") "/ok" html], [])
    ∧ processRoutes fetch parse base ["/fails-404", "/ok"] "text" =
        .ok ([pipelineResult parse (base ++ "/ok") "/ok" html], [])
    ∧ (pipelineResult parse (base ++ "/ok") "/ok" html).route = "/ok"
    ∧ (pipelineResult parse (base ++ "/ok") "/ok" html).url = base ++ "/ok" := by
  have hgok : generateFilesForRoute fetch parse base "/ok" "text" =
      .ok (some (pipelineResult parse (base ++ "/ok") "/ok" html)) := by
    have hred : generateFilesForRoute fetch parse base "/ok" "text" =
        if base = "" then .error (.error "Base URL is required")
        else
          match fetch (base ++ "/ok") with
          | none => .ok none
          | some content =>
            if content = "" then .ok none
            else .ok (some (pipelineResult parse (base ++ "/ok") "/ok" content)) := rfl
    rw [hred, if_neg hbase, hok]
    show (if html = "" then Except.ok none
      else .ok (some (pipelineResult parse (base ++ "/ok") "/ok" html))) = _
    rw [if_neg hhtml]
  have hgfail : generateFilesForRoute fetch parse base "/fails-404" "text" =
      .ok none := by
    have hred : generateFilesForRoute fetch parse base "/fails-404" "text" =
        if base = "" then .error (.error "Base URL is required")
        else
          match fetch (base ++ "/fails-404") with
          | none => .ok none
          | some content =>
            if content = "" then .ok none
            else .ok (some (pipelineResult parse (base ++ "/fails-404") "/fails-404" content)) := rfl
    rw [hred, if_neg hbase, hfail]
  have hs1 : processStep fetch parse base "text" ([], []) "/ok" =
      ([pipelineResult parse (base ++ "/ok") "/ok" html], []) := by
    unfold processStep
    rw [hgok]
    rfl
  have hs2 : processStep fetch parse base "text"
        ([pipelineResult parse (base ++ "/ok") "/ok" html], []) "/fails-404" =
      ([pipelineResult parse (base ++ "/ok") "/ok" html], []) := by
    unfold processStep
    rw [hgfail]
  have hs3 : processStep fetch parse base "text" ([], []) "/fails-404" =
      ([], []) := by
    unfold processStep
    rw [hgfail]
  refine ⟨?_, ?_, rfl, rfl⟩
  · have hred : processRoutes fetch parse base ["/ok", "/fails-404"] "text" =
        if base = "" then .error (.error "Base URL is required")
        else
          .ok (List.foldl (processStep fetch parse base "text") ([], [])
            ["/ok", "/fails-404"]) := rfl
    rw [hred, if_neg hbase, List.foldl_cons, hs1, List.foldl_cons, hs2, List.foldl_nil]
  · have hred : processRoutes fetch parse base ["/fails-404", "/ok"] "text" =
        if base = "" then .error (.error "Base URL is required")
        else
          .ok (List.foldl (processStep fetch parse base "text") ([], [])
            ["/fails-404", "/ok"]) := rfl
    rw [hred, if_neg hbase, List.foldl_cons, hs3, List.foldl_cons, hs1, List.foldl_nil]

/-- Witness for the amended C4, with the failing route first. -/
theorem C4_amended_one_success_one_fetch_failure_witness :
    processRoutes fetchC4 (fun _ => emptyDoc)
        "https://example.com" ["/fails-404", "/ok"] "text" =
      .ok ([pipelineResult (fun _ => emptyDoc) "https://example.com/ok" "/ok"
              "\x7b\"title\": \"Ok Page\"\x7d"], []) :=
  (C4_amended_one_success_one_fetch_failure fetchC4 (fun _ => emptyDoc)
    "https://example.com" "\x7b\"title\": \"Ok Page\"\x7d"
    (by decide) (by rfl) (by decide) (by rfl)).2.1

/-! ### Lemmas about the phase-1 selector fold -/

/-- A selector with no match scores zero. -/
lemma selScore_of_no_match {sel : Selector} {doc : Dom}
    (h : selectAll sel doc = []) : selScore sel doc = 0 := by
  unfold selScore
  rw [h]
  rfl

/-- `phase1Step` is a strict running max on `selScore`. -/
lemma phase1Step_eq (doc : Dom) (st : SelState) (p : Selector × String) :
    phase1Step doc st p =
      if st.score < selScore p.1 doc then
        ⟨selectAll p.1 doc, selScore p.1 doc, p.2⟩
      else st := by
  unfold phase1Step
  by_cases hm : (selectAll p.1 doc).isEmpty
  · have he : selectAll p.1 doc = [] := List.isEmpty_iff.mp hm
    rw [he, selScore_of_no_match he]
    simp
  · have hm' : (!(selectAll p.1 doc).isEmpty) = true := by
      cases hsel : (selectAll p.1 doc).isEmpty
      · rfl
      · exact absurd hsel hm
    rw [if_pos hm']

/-- The score after the fold is the running max of the start score and every
selector score. -/
lemma foldl_phase1_score (doc : Dom) (L : List (Selector × String)) (st : SelState) :
    (L.foldl (phase1Step doc) st).score = max st.score (maxSelScoreOver doc L) := by
  induction L generalizing st with
  | nil => simp [maxSelScoreOver]
  | cons p L ih =>
    rw [List.foldl_cons, ih, phase1Step_eq]
    have hstep : (if st.score < selScore p.1 doc then
        (⟨selectAll p.1 doc, selScore p.1 doc, p.2⟩ : SelState)
      else st).score = max st.score (selScore p.1 doc) := by
      split
      · next h => simp; omega
      · next h => simp; omega
    rw [hstep]
    show _ = max st.score (max (selScore p.1 doc) (maxSelScoreOver doc L))
    omega

/-- The selector name after the fold is the start name or one of the folded
selector names. -/
lemma foldl_phase1_selName_mem (doc : Dom) (L : List (Selector × String)) (st : SelState) :
    (L.foldl (phase1Step doc) st).selName = st.selName ∨
      (L.foldl (phase1Step doc) st).selName ∈ L.map Prod.snd := by
  induction L generalizing st with
  | nil => exact Or.inl rfl
  | cons p L ih =>
    rw [List.foldl_cons, phase1Step_eq]
    split
    · rcases ih ⟨selectAll p.1 doc, selScore p.1 doc, p.2⟩ with h | h
      · exact Or.inr (by rw [h]; exact List.mem_cons_self _ _)
      · exact Or.inr (List.mem_cons_of_mem _ h)
    · rcases ih st with h | h
      · exact Or.inl h
      · exact Or.inr (List.mem_cons_of_mem _ h)

/-- If no selector beats the current score, the fold is the identity. -/
lemma foldl_phase1_no_update (doc : Dom) (L : List (Selector × String)) (st : SelState)
    (h : ∀ p ∈ L, selScore p.1 doc ≤ st.score) :
    L.foldl (phase1Step doc) st = st := by
  induction L with
  | nil => rfl
  | cons p L ih =>
    rw [List.foldl_cons, phase1Step_eq,
      if_neg (Nat.not_lt.mpr (h p (List.mem_cons_self _ _)))]
    exact ih (fun q hq => h q (List.mem_cons_of_mem _ hq))

/-- If the selector name survives the fold (and cannot be produced by it),
no folded selector ever beat the start score. -/
lemma foldl_phase1_stay_imp (doc : Dom) (L : List (Selector × String)) (st : SelState)
    (hnot : st.selName ∉ L.map Prod.snd)
    (heq : (L.foldl (phase1Step doc) st).selName = st.selName) :
    ∀ p ∈ L, selScore p.1 doc ≤ st.score := by
  induction L generalizing st with
  | nil => intro p hp; cases hp
  | cons q L ih =>
    intro p hp
    rw [List.foldl_cons, phase1Step_eq] at heq
    by_cases hc : st.score < selScore q.1 doc
    · exfalso
      rw [if_pos hc] at heq
      rcases foldl_phase1_selName_mem doc L ⟨selectAll q.1 doc, selScore q.1 doc, q.2⟩ with
        h | h
      · rw [heq] at h
        exact hnot (by rw [h]; exact List.mem_cons_self _ _)
      · rw [heq] at h
        exact hnot (List.mem_cons_of_mem _ h)
    · rw [if_neg hc] at heq
      rcases List.mem_cons.mp hp with hqp | hpL
      · rw [hqp]; exact Nat.not_lt.mp hc
      · exact ih st (fun hmem => hnot (List.mem_cons_of_mem _ hmem)) heq p hpL

/-- A selector that strictly beats every other selector (and the start
score) wins the fold outright. -/
lemma foldl_phase1_unique_win (doc : Dom) (L : List (Selector × String)) (st : SelState)
    (p : Selector × String) (hp : p ∈ L) (hlt : st.score < selScore p.1 doc)
    (hmax : ∀ q ∈ L, q ≠ p → selScore q.1 doc < selScore p.1 doc) :
    L.foldl (phase1Step doc) st = ⟨selectAll p.1 doc, selScore p.1 doc, p.2⟩ := by
  induction L generalizing st with
  | nil => cases hp
  | cons q L ih =>
    rw [List.foldl_cons, phase1Step_eq]
    by_cases hqp : q = p
    · rw [hqp, if_pos hlt]
      refine foldl_phase1_no_update doc L _ ?_
      intro r hr
      by_cases hrp : r = p
      · rw [hrp]
      · exact Nat.le_of_lt (hmax r (List.mem_cons_of_mem _ hr) hrp)
    · have hpL : p ∈ L := by
        rcases List.mem_cons.mp hp with h | h
        · exact absurd h.symm hqp
        · exact h
      have hq : selScore q.1 doc < selScore p.1 doc :=
        hmax q (List.mem_cons_self _ _) hqp
      by_cases hc : st.score < selScore q.1 doc
      · rw [if_pos hc]
        exact ih ⟨selectAll q.1 doc, selScore q.1 doc, q.2⟩ hpL hq
          (fun r hr hrp => hmax r (List.mem_cons_of_mem _ hr) hrp)
      · rw [if_neg hc]
        exact ih st hpL hlt
          (fun r hr hrp => hmax r (List.mem_cons_of_mem _ hr) hrp)

set_option maxRecDepth 8192 in
/-- **C5, counterexample.**  The heuristic fallback does *not* run only when
no prioritized selector matched at all: in `emptyMainDoc` the selector
`main` matches (one element), but its trimmed text is empty, so phase 1
leaves the `body` default in place (score can only grow on a strictly
positive text length) and the heuristic div scan *does* run, selecting the
4-paragraph div (the extracted text is the div's 18 characters, not the
body's 43). -/
theorem C5_matched_selector_heuristic_counterexample :
    (selectAll (Selector.tag "main") emptyMainDoc).length = 1
    ∧ (phase1 emptyMainDoc).selName = "body"
    ∧ (selectMain emptyMainDoc).score = 18
    ∧ (selectMain emptyMainDoc).selName = "body"
    ∧ (extractContentHtml emptyMainDoc).usedSelector = some "body"
    ∧ (extractContentHtml emptyMainDoc).textContent = "one two three four"
    ∧ (jsTrim (textOfList (selectAll (.tag "body") emptyMainDoc))).length = 43 :=
  ⟨rfl, rfl, rfl, rfl, rfl, rfl, rfl⟩

set_option maxRecDepth 8192 in
/-- **C5, amended.**  Phase 1 keeps, over all prioritized selectors, the
match with the greatest trimmed text length: the final score is the maximum
selector score, and a selector that strictly beats every other (in
particular a later, lower-priority one wrapping more text) wins outright.
The heuristic fallback runs exactly when phase 1 left the `body` default in
place — i.e. when no prioritized selector matched *with non-empty trimmed
text* (not merely when none matched at all).  In the 51-div example,
`#content` is selected via phase 1 with its 69 characters of text, even
though the wrapper div has 102 `<p>` descendants and more text, so the
heuristic (which would have preferred the wrapper) never ran. -/
theorem C5_amended_most_text_selection :
    (∀ doc : Dom, (phase1 doc).score = maxSelScore doc)
    ∧ (∀ doc : Dom, ((phase1 doc).selName = "body" ↔
        ∀ p ∈ contentSelectors, selScore p.1 doc = 0))
    ∧ (∀ (doc : Dom) (p : Selector × String), p ∈ contentSelectors →
        0 < selScore p.1 doc →
        (∀ q ∈ contentSelectors, q ≠ p → selScore q.1 doc < selScore p.1 doc) →
        phase1 doc = ⟨selectAll p.1 doc, selScore p.1 doc, p.2⟩)
    ∧ (∀ doc : Dom, (phase1 doc).selName ≠ "body" → selectMain doc = phase1 doc)
    ∧ (selectMain locatorDoc).selName = "#content"
    ∧ (selectMain locatorDoc).score = 69
    ∧ (extractContentHtml locatorDoc).usedSelector = some "#content"
    ∧ (findAll (.tag "p") wrapperDiv).length = 102
    ∧ 69 < (jsTrim (textOf wrapperDiv)).length := by
  refine ⟨?_, ?_, ?_, ?_, by rfl, by rfl, by rfl, by rfl, by decide⟩
  · intro doc
    unfold phase1 maxSelScore
    rw [foldl_phase1_score]
    show max 0 _ = _
    omega
  · intro doc
    constructor
    · intro h p hp
      have hb : ("body" : String) ∉ contentSelectors.map Prod.snd := by decide
      have hle := foldl_phase1_stay_imp doc contentSelectors
        ⟨selectAll (.tag "body") doc, 0, "body"⟩ hb h p hp
      exact Nat.le_zero.mp hle
    · intro h
      unfold phase1
      rw [foldl_phase1_no_update doc contentSelectors _
        (fun p hp => Nat.le_of_eq (h p hp))]
  · intro doc p hp hpos hmax
    unfold phase1
    exact foldl_phase1_unique_win doc contentSelectors _ p hp hpos hmax
  · intro doc h
    show (if (phase1 doc).selName = "body" then _ else phase1 doc) = phase1 doc
    rw [if_neg h]

/-- Witness for the amended C5: on `tinyMainDoc` the selector `main` is the
unique strictly-best match and wins phase 1 with score 5. -/
theorem C5_amended_most_text_selection_witness :
    phase1 tinyMainDoc =
      ⟨selectAll (Selector.tag "main") tinyMainDoc, 5, "main"⟩ := by
  have h := C5_amended_most_text_selection.2.2.1 tinyMainDoc
    (Selector.tag "main", "main") (by decide) (by decide) (by decide)
  rw [h]
  rfl
